import Mathlib

/-!
Verification development for the uncertainty-quantification engine
(`uncertainpy/parameters.py`, `uncertainty.py`, `src/evaluateNodeFunction.py`).

The source is Python 2 running on CPython 2.7 / 64-bit Linux.  Where the
observable behaviour of a construct depends on the runtime (notably the
iteration order of a `dict`, which in Python 2 is hash-table slot order and
not insertion order), that runtime behaviour is embedded explicitly:
the CPython 2.7 string hash (64-bit `long`, hash randomization disabled,
which is the CPython 2.7 default) and the open-addressing probe sequence of
`dictobject.c` for the initial 8-slot table.  The model is valid below the
resize threshold (fewer than 6 live entries), which covers every dictionary
built by the code under study in the scenarios considered here.

External libraries (chaospy, numpy, scipy) are opaque collaborators; each
call into them is modelled by its documented contract, stated at the
definition that embeds it.
-/

/-- 2^64, the modulus of CPython's `long` hash arithmetic on a 64-bit platform. -/
def pyMod : Nat := 2 ^ 64

/-- Fold step of CPython 2.7's `string_hash`: `x = (1000003*x) ^ ord(c)`,
with the multiplication wrapping modulo 2^64. -/
def pyHashStep (x : Nat) (c : Char) : Nat :=
  ((1000003 * x) % pyMod) ^^^ c.toNat

/-- CPython 2.7 `string_hash` (64-bit, `_Py_HashSecret` zero, the default):
`x = ord(s[0]) << 7; for c in s: x = (1000003*x) ^ ord(c); x ^= len(s)`,
with the final `-1 -> -2` adjustment (as unsigned 64-bit bit patterns). -/
def pyHashString (s : String) : Nat :=
  match s.data with
  | [] => 0
  | c :: _ =>
    let x0 : Nat := (c.toNat <<< 7) % pyMod
    let x1 : Nat := s.data.foldl pyHashStep x0
    let x2 : Nat := x1 ^^^ s.length
    if x2 = pyMod - 1 then pyMod - 2 else x2

/-- A CPython 2.7 dictionary below its resize threshold: the fixed table of
8 slots (`PyDict_MINSIZE`), each empty or holding a key/value pair.
Iteration (`values()`, `keys()`, `for k in d`) walks the slots in index
order, so the observable ordering is hash-slot order. -/
def PyDict (α : Type) : Type := List (Option (String × α))

/-- A fresh dictionary: 8 empty slots. -/
def pyDictEmpty {α : Type} : PyDict α := List.replicate 8 none

/-- The open-addressing probe of `dictobject.c`'s `lookdict` specialised to
insertion without deletions: slot `i % 8`; on a collision with a different
key, `i := 5*i + perturb + 1` (wrapping as a 64-bit `size_t`) and
`perturb := perturb >> 5`.  The fuel of 64 is enough to find an empty slot
whenever one exists (after 13 probes the perturbation is exhausted and
`i -> 5*i+1` cycles through all 8 residues). -/
def pyDictInsertGo {α : Type} (k : String) (v : α) :
    Nat → PyDict α → Nat → Nat → PyDict α
  | 0, d, _, _ => d
  | fuel + 1, d, i, perturb =>
    let s := i % 8
    match (d.getD s none) with
    | none => d.set s (some (k, v))
    | some kv =>
      if kv.1 = k then
        d.set s (some (k, v))
      else
        pyDictInsertGo k v fuel d ((5 * i + perturb + 1) % pyMod) (perturb >>> 5)

/-- `d[k] = v` on a CPython 2.7 dict (small-table regime). -/
def pyDictInsert {α : Type} (d : PyDict α) (k : String) (v : α) : PyDict α :=
  pyDictInsertGo k v 64 d (pyHashString k % 8) (pyHashString k)

/-- `d.values()`: the stored values in slot order. -/
def pyDictValues {α : Type} (d : PyDict α) : List α :=
  d.filterMap (fun slot => slot.map (fun kv => kv.2))

/-- `cp.Dist`, a chaospy probability-distribution object.  Only its identity
and its dimensionality (`len(dist)`) are observable to the code under study;
`tag` distinguishes distinct distribution objects. -/
structure CpDist where
  dim : Nat
  tag : Nat
deriving DecidableEq

/-- A Python value passed as the `distribution` argument of
`Parameter.setDistribution`: `None`, a chaospy distribution, a callable
(which the code applies to the parameter's nominal value), or anything
else. -/
inductive PyObj where
  | none
  | dist (d : CpDist)
  | callable (f : ℚ → PyObj)
  | other

/-- The exceptions raised by `parameters.py`. -/
inductive PyErr where
  | typeError (msg : String)
deriving DecidableEq

/-- `Parameter` (`uncertainpy/parameters.py`): a name, a nominal value, and
`parameter_space` — the optional chaospy distribution. -/
structure Parameter where
  name : String
  value : ℚ
  parameter_space : Option CpDist
deriving DecidableEq

/-- `Parameter.setDistribution`:
`None` clears `parameter_space`; a `cp.Dist` is stored as given (no check of
any kind, in particular no dimensionality check); a callable is invoked on
`self.value` and must return a `cp.Dist`, else
`TypeError("Function does not return a Chaospy distribution")`; anything
else raises
`TypeError("Argument is neither a function nor a Chaospy distribution")`. -/
def Parameter.setDistribution (p : Parameter) (distribution : PyObj) :
    Except PyErr Parameter :=
  match distribution with
  | PyObj.none => Except.ok { p with parameter_space := Option.none }
  | PyObj.dist d => Except.ok { p with parameter_space := some d }
  | PyObj.callable f =>
    match f p.value with
    | PyObj.dist d => Except.ok { p with parameter_space := some d }
    | _ => Except.error (PyErr.typeError ("Function does not return a Chaospy distribution"))
  | PyObj.other =>
    Except.error (PyErr.typeError ("Argument is neither a function nor a Chaospy distribution"))

/-- The `Parameter(name, value, distribution)` constructor: stores name and
value, then runs `setDistribution(distribution)` (whose exception, if any,
propagates out of the constructor). -/
def Parameter.make (name : String) (value : ℚ) (distribution : PyObj) :
    Except PyErr Parameter :=
  Parameter.setDistribution { name := name, value := value, parameter_space := Option.none }
    distribution

/-- The loop of `Parameters.__init__` over a `[[name, value, distribution], ...]`
parameter list: each entry is turned into a `Parameter` (constructor errors
propagate) and stored with `self.parameters[name] = parameter` into the
Python 2 dict. -/
def parametersInitGo :
    List (String × ℚ × PyObj) → PyDict Parameter → Except PyErr (PyDict Parameter)
  | [], d => Except.ok d
  | (n, v, dist) :: rest, d =>
    match Parameter.make n v dist with
    | Except.error e => Except.error e
    | Except.ok p => parametersInitGo rest (pyDictInsert d n p)

/-- `Parameters(parameterlist)`: `self.parameters = {}` then the insertion
loop. -/
def Parameters.ofList (plist : List (String × ℚ × PyObj)) :
    Except PyErr (PyDict Parameter) :=
  parametersInitGo plist pyDictEmpty

/-- `Parameters.getUncertain("name")`: walk `self.parameters.values()`
(slot order), keep the parameters whose `parameter_space` is not `None`,
and collect their `name` attribute. -/
def Parameters.getUncertainNames (d : PyDict Parameter) : List String :=
  ((pyDictValues d).filter (fun p => p.parameter_space.isSome)).map (fun p => p.name)

/-- `Parameters.getUncertain("parameter_space")`: same walk, collecting the
(non-`None`) `parameter_space` attribute. -/
def Parameters.getUncertainSpaces (d : PyDict Parameter) : List CpDist :=
  (pyDictValues d).filterMap (fun p => p.parameter_space)

/-- The joint distribution `cp.J(*parameter_space)`: chaospy concatenates
the given marginals; its dimensionality (`len`) is the sum of the marginal
dimensionalities. -/
structure JointDist where
  marginals : List CpDist
deriving DecidableEq

/-- `cp.J`. -/
def cpJ (l : List CpDist) : JointDist := JointDist.mk l

/-- `len(cp.J(...))`: total dimensionality. -/
def JointDist.dim (j : JointDist) : Nat :=
  (j.marginals.map CpDist.dim).sum

/-- The distribution built by `UncertaintyEstimation.createPCExpansion`
(the `parameter_name is None` branch):
`self.distribution = cp.J(*self.parameters.getUncertain("parameter_space"))`. -/
def createPCExpansionDist (d : PyDict Parameter) : JointDist :=
  cpJ (Parameters.getUncertainSpaces d)

/-- The exponent multi-indices of the orthogonal basis `cp.orth_ttr(M, dist)`
(total-degree truncation): over `d` variables, all tuples of natural
exponents with total degree at most `M`, the all-zero (constant) tuple
first.  Only the basis's indexing and size are observable to the code under
study. -/
def degLeTuples : Nat → Nat → List (List Nat)
  | 0, _ => [[]]
  | d + 1, M =>
    (List.range (M + 1)).flatMap (fun i => (degLeTuples d (M - i)).map (fun t => i :: t))

/-- `self.P = cp.orth_ttr(self.M, self.distribution)`, as its list of basis
exponent multi-indices. -/
def orth_ttr (M : Nat) (jd : JointDist) : List (List Nat) :=
  degLeTuples jd.dim M

/-- `self.distribution.sample(n, "M")`: the external sampler returns exactly
`n` draws from the joint distribution; the draws themselves are produced by
the library's random state, abstracted as the oracle `draw`. -/
def cpSample (n : Nat) (draw : Nat → List ℚ) : List (List ℚ) :=
  (List.range n).map draw

/-- The node matrix of `createPCExpansion`:
`nodes = self.distribution.sample(2*len(self.P), "M")`. -/
def createPCExpansionNodes (d : PyDict Parameter) (M : Nat) (draw : Nat → List ℚ) :
    List (List ℚ) :=
  cpSample (2 * (orth_ttr M (createPCExpansionDist d)).length) draw

/-- `cp.Var(U_hat, dist)` on one time step of a fitted polynomial-chaos
expansion, by the orthogonality closed form documented for chaospy
(spec 4.5): with coefficients `c_k` against orthogonal basis polynomials
`Phi_k` (`Phi_0` constant) of squared norms `E[Phi_k^2]`,
`Var = sum over k >= 1 of c_k^2 * E[Phi_k^2]`. -/
def cpVarPCE (coeffs norms : List ℚ) : ℚ :=
  (((coeffs.zip norms).drop 1).map (fun p => p.1 ^ 2 * p.2)).sum

/-- `self.U_hat = cp.fit_regression(self.P, nodes, interpolated_solves)`:
per reference-grid time step, one regression coefficient vector against the
basis `P` (the external fit returns one coefficient per basis polynomial). -/
structure PCEModel where
  basis : List (List Nat)
  coeffs : List (List ℚ)
deriving DecidableEq

/-- `self.Var = cp.Var(self.U_hat, self.distribution)` in
`UncertaintyEstimation.allParameters`: the per-time-step variances of the
fitted expansion. -/
def allParametersVar (m : PCEModel) (norms : List ℚ) : List ℚ :=
  m.coeffs.map (fun c => cpVarPCE c norms)

/-- One entry of the `solves` batch in `createPCExpansion`: the raw time
vector `t`, the raw output `V`, and
`scipy.interpolate.InterpolatedUnivariateSpline(t, V, k=3)` — an opaque
callable evaluable at arbitrary points. -/
structure Solve where
  t : List ℚ
  V : List ℚ
  inter : ℚ → ℚ

/-- Placeholder used for out-of-range list access (never reached under the
stated hypotheses). -/
def defaultSolve : Solve :=
  Solve.mk [] [] (fun x => x)

/-- `lengths`: `for s in solves[:, 0]: lengths.append(len(s))`. -/
def solveLengths (solves : List Solve) : List Nat :=
  solves.map (fun s => s.t.length)

/-- The running-state loop of `np.argmax`: scan with current best index and
best value, replacing the best only on a strictly greater value (so the
first occurrence of the maximum wins). -/
def npArgmaxGo : List Nat → Nat → Nat → Nat → Nat
  | [], _, bi, _ => bi
  | x :: xs, i, bi, bv =>
    if bv < x then npArgmaxGo xs (i + 1) i x else npArgmaxGo xs (i + 1) bi bv

/-- `np.argmax`: index of the first occurrence of the maximum (0 on the
empty list, where numpy instead raises). -/
def npArgmax : List Nat → Nat
  | [] => 0
  | x :: xs => npArgmaxGo xs 1 0 x

/-- `index_max_len = np.argmax(lengths); self.t = solves[index_max_len, 0]`:
the reference time grid of the batch. -/
def referenceT (solves : List Solve) : List ℚ :=
  (solves.getD (npArgmax (solveLengths solves)) defaultSolve).t

/-- `interpolated_solves`: each raw result's spline evaluated at every point
of the reference grid `self.t`. -/
def interpolatedSolves (solves : List Solve) : List (List ℚ) :=
  solves.map (fun s => (referenceT solves).map s.inter)

/-- An evaluation node as handed to `evaluateNodeFunction`: for a
one-dimensional joint distribution the sampler yields bare scalars, for
higher dimensions vectors. -/
inductive NodeVal where
  | scalar (x : ℚ)
  | vec (xs : List ℚ)

/-- `if isinstance(node, float) or isinstance(node, int): node = [node]` —
the scalar-to-singleton wrap at the top of `evaluateNodeFunction`. -/
def wrapScalarNode : NodeVal → List ℚ
  | NodeVal.scalar x => [x]
  | NodeVal.vec xs => xs

/-- The `tmp_parameters` loop: `tmp_parameters[parameter] = node[j]` with
`j` counting up; `none` models the `IndexError` of an out-of-range
`node[j]`. -/
def buildAssignmentGo : List String → List ℚ → Nat → Option (List (String × ℚ))
  | [], _, _ => some []
  | n :: ns, node, j =>
    match node.get? j with
    | Option.none => Option.none
    | some x =>
      match buildAssignmentGo ns node (j + 1) with
      | Option.none => Option.none
      | some rest => some ((n, x) :: rest)

/-- The name-to-value assignment built from the (wrapped) node vector. -/
def buildAssignment (names : List String) (node : List ℚ) :
    Option (List (String × ℚ)) :=
  buildAssignmentGo names node 0

/-- The outcome of the dispatched simulation subprocess
(`subprocess.Popen(cmd, ...)` followed by `communicate()`): its return
code, captured stdout `ut` and captured stderr `err`. -/
structure SimOutcome where
  rc : Int
  ut : String
  err : String
deriving DecidableEq

/-- One value of the mapping returned by `features.calculateFeatures`:
a length-2 tuple of two iterables, some other iterable, or a bare scalar —
the three shapes distinguished by the result loop. -/
inductive FRes where
  | pairII (a b : List ℚ)
  | iterOther (xs : List ℚ)
  | scalar (x : ℚ)
deriving DecidableEq

/-- A `scipy.interpolate.InterpolatedUnivariateSpline(t, u, k)` object,
kept symbolic: its identity is the data it was built from. -/
structure Spline where
  t : List ℚ
  u : List ℚ
  k : Nat
deriving DecidableEq

/-- The second component of a result entry: the stored feature output, an
iterable or a bare scalar. -/
inductive FOut where
  | list (xs : List ℚ)
  | scalar (x : ℚ)
deriving DecidableEq

/-- One value of the `results` mapping:
`(x, U, interpolation)` with optional components. -/
def ResultEntry : Type := Option (List ℚ) × FOut × Option Spline

instance : DecidableEq ResultEntry := by
  unfold ResultEntry
  infer_instance

/-- `results[feature] = ...` — the branch taken for one feature result
(`t`, `U` are the raw simulation time and output vectors; note the spline
in the first branch is built from `t, U`, not from the feature's own data). -/
def featureEntry (t U : List ℚ) : FRes → ResultEntry
  | FRes.pairII a b => (some a, FOut.list b, some (Spline.mk t U 3))
  | FRes.iterOther xs => (Option.none, FOut.list xs, Option.none)
  | FRes.scalar x => (Option.none, FOut.scalar x, Option.none)

/-- Key update on a Python dict, modelled at the level of its observable
lookup behaviour (an existing key's value is replaced, a fresh key is
added; C10 depends only on lookups, which are independent of slot order). -/
def dictSet {α : Type} : List (String × α) → String → α → List (String × α)
  | [], k, v => [(k, v)]
  | (k', v') :: rest, k, v =>
    if k' = k then (k, v) :: rest else (k', v') :: dictSet rest k v

/-- `d[k]` as an optional lookup. -/
def dictLookup {α : Type} (m : List (String × α)) (k : String) : Option α :=
  (m.find? (fun p => p.1 = k)).map (fun p => p.2)

/-- The `for feature in feature_results` loop filling `results`. -/
def resultsLoop (t U : List ℚ) :
    List (String × FRes) → List (String × ResultEntry) → List (String × ResultEntry)
  | [], acc => acc
  | (n, fr) :: rest, acc => resultsLoop t U rest (dictSet acc n (featureEntry t U fr))

/-- The failure modes of one node evaluation: an out-of-range `node[j]`
(`IndexError`), or `sys.exit(1)` after a nonzero simulation return code —
the latter carries exactly the lines printed on the failure path,
`ut`, `"Error when running simulation:"`, `err`. -/
inductive NodeError where
  | indexError
  | simulationFailed (printed : List String)
deriving DecidableEq

/-- `evaluateNodeFunction` (`src/evaluateNodeFunction.py`), with the
external effects supplied as inputs: the subprocess outcome `sim`, the
arrays `t`, `U` loaded from the worker's temp files, and the feature
mapping `frs` returned by the dynamically imported feature module.  The
function wraps a scalar node, builds the name-to-value assignment, runs the
simulation, aborts with `sys.exit(1)` on a nonzero return code (printing
only the captured stdout, a fixed message, and the captured stderr — it
receives no node index and prints neither an index nor the node vector),
and otherwise builds the feature results and finally sets
`results["directComparison"] = (t, U, InterpolatedUnivariateSpline(t, U, k=3))`. -/
def evaluateNodeFunction (node : NodeVal) (names : List String) (sim : SimOutcome)
    (t U : List ℚ) (frs : List (String × FRes)) :
    Except NodeError (List (String × ResultEntry)) :=
  match buildAssignment names (wrapScalarNode node) with
  | Option.none => Except.error NodeError.indexError
  | some _ =>
    if sim.rc ≠ 0 then
      Except.error (NodeError.simulationFailed
        [sim.ut, "Error when running simulation:", sim.err])
    else
      Except.ok (dictSet (resultsLoop t U frs [])
        ("directComparison")
        (some t, FOut.list U, some (Spline.mk t U 3)))

/-- One node's job in a batch: its node vector and the external outcomes of
its evaluation. -/
structure NodeJob where
  node : NodeVal
  sim : SimOutcome
  t : List ℚ
  U : List ℚ
  frs : List (String × FRes)

/-- Sequential fan-out over the batch (the driving loop over `nodes.T`):
a node failure propagates as the raised exception and aborts the whole
batch, producing no result list at all. -/
def runBatch (names : List String) :
    List NodeJob → Except NodeError (List (List (String × ResultEntry)))
  | [] => Except.ok []
  | j :: rest =>
    match evaluateNodeFunction j.node names j.sim j.t j.U j.frs with
    | Except.error e => Except.error e
    | Except.ok r =>
      match runBatch names rest with
      | Except.error e => Except.error e
      | Except.ok rs => Except.ok (r :: rs)

instance instExceptDecidableEq {ε α : Type} [DecidableEq ε] [DecidableEq α] :
    DecidableEq (Except ε α) := fun x y =>
  match x, y with
  | Except.ok a, Except.ok b =>
    if h : a = b then isTrue (by rw [h]) else isFalse (fun hc => h (Except.ok.inj hc))
  | Except.error e, Except.error f =>
    if h : e = f then isTrue (by rw [h]) else isFalse (fun hc => h (Except.error.inj hc))
  | Except.ok _, Except.error _ => isFalse (fun hc => Except.noConfusion hc)
  | Except.error _, Except.ok _ => isFalse (fun hc => Except.noConfusion hc)

/-- The parameter list of the C1 counterexample: two uncertain parameters,
registered as `b` then `a` (distinct distribution objects). -/
def c1List : List (String × ℚ × PyObj) :=
  [("b", 1, PyObj.dist (CpDist.mk 1 1)), ("a", 2, PyObj.dist (CpDist.mk 1 0))]

/-- A concrete two-parameter dictionary (the state reached from `c1List`),
used to instantiate hypotheses about arbitrary parameter sets. -/
def exampleDict : PyDict Parameter :=
  pyDictInsert (pyDictInsert pyDictEmpty "b" (Parameter.mk "b" 1 (some (CpDist.mk 1 1))))
    "a" (Parameter.mk "a" 2 (some (CpDist.mk 1 0)))

/-- The parameter list of the C4 counterexample: two uncertain parameters,
the second carrying a 3-dimensional multivariate chaospy distribution. -/
def c4List : List (String × ℚ × PyObj) :=
  [("a", 1, PyObj.dist (CpDist.mk 1 0)), ("b", 2, PyObj.dist (CpDist.mk 3 1))]

/-- A nominal parameter used to exercise `setDistribution` with generator
functions. -/
def witnessParam : Parameter := Parameter.mk "Rm" 22000 Option.none

/-- The distribution object returned by the valid generator below. -/
def witnessDist : CpDist := CpDist.mk 1 7

/-- A generator function returning a chaospy distribution for every nominal
value. -/
def goodGenerator : ℚ → PyObj := fun _ => PyObj.dist witnessDist

/-- A generator function returning a non-distribution object. -/
def badGenerator : ℚ → PyObj := fun _ => PyObj.other

/-- A two-dimensional joint distribution for the degenerate-basis scenario. -/
def c7Joint : JointDist := cpJ [CpDist.mk 1 0, CpDist.mk 1 1]

/-- A degree-0 expansion over `c7Joint`: single constant basis function, two
reference-grid time steps with coefficient vectors `[5]` and `[7]`. -/
def c7Model : PCEModel := PCEModel.mk (orth_ttr 0 c7Joint) [[5], [7]]

/-- A batch of two solves with time grids of lengths 1 and 2. -/
def exampleSolves : List Solve :=
  [Solve.mk [0] [3] (fun x => x), Solve.mk [0, 1] [3, 4] (fun x => x + 1)]

/-- A job whose simulation succeeds. -/
def jobGood : NodeJob := NodeJob.mk (NodeVal.vec [2]) (SimOutcome.mk 0 "" "") [0] [1] []

/-- A job whose simulation exits with return code 1. -/
def jobBad : NodeJob := NodeJob.mk (NodeVal.vec [3]) (SimOutcome.mk 1 "out" "boom") [] [] []

/-- Concrete time/output vectors for the `directComparison` witness. -/
def c10T : List ℚ := [0, 1]

/-- Concrete output vector for the `directComparison` witness. -/
def c10U : List ℚ := [10, 20]

/-- The result mapping produced by a featureless successful evaluation on
`c10T`, `c10U`. -/
def c10Map : List (String × ResultEntry) :=
  [("directComparison", (some c10T, FOut.list c10U, some (Spline.mk c10T c10U 3)))]

/-- Summing the marginal dimensionalities of the uncertain parameters, when
every marginal is one-dimensional, counts the uncertain parameters. -/
theorem sum_dims_eq_count (l : List Parameter)
    (h : ∀ p ∈ l, (p.parameter_space.map CpDist.dim).getD 1 = 1) :
    ((l.filterMap (fun p => p.parameter_space)).map CpDist.dim).sum
      = (l.filter (fun p => p.parameter_space.isSome)).length := by
  induction l with
  | nil => simp
  | cons p rest ih =>
    have hp := h p (List.mem_cons_self _ _)
    have hrest := ih (fun a ha => h a (List.mem_cons_of_mem _ ha))
    cases hq : p.parameter_space with
    | none =>
      simp only [List.filterMap_cons, List.filter_cons, hq]
      simpa using hrest
    | some q =>
      have hdim : q.dim = 1 := by rw [hq] at hp; simpa using hp
      simp only [List.filterMap_cons, List.filter_cons, hq]
      simp [hdim, hrest, Nat.add_comm]

/-- The truncated basis over `d` variables with total degree at most `M` has
`(M + d).choose d` elements — the documented size of `cp.orth_ttr(M, dist)`
for a `d`-dimensional distribution. -/
theorem degLeTuples_length (d : Nat) :
    ∀ M : Nat, (degLeTuples d M).length = Nat.choose (M + d) d := by
  induction d with
  | zero =>
    intro M
    simp [degLeTuples]
  | succ d ihd =>
    have hsum : ∀ K : Nat, (degLeTuples (d + 1) K).length
        = ((List.range (K + 1)).map (fun i => (degLeTuples d (K - i)).length)).sum := by
      intro K
      show ((List.range (K + 1)).flatMap
          (fun i => (degLeTuples d (K - i)).map (fun t => i :: t))).length = _
      rw [List.length_flatMap]
      refine congrArg List.sum (List.map_congr_left ?_)
      intro i _
      simp [Function.comp_apply]
    intro M
    induction M with
    | zero =>
      rw [hsum 0]
      simp [ihd 0, Nat.choose_self]
    | succ M ihM =>
      rw [hsum (M + 1), List.range_succ_eq_map, List.map_cons, List.sum_cons, List.map_map]
      have hcomp : ((fun i => (degLeTuples d (M + 1 - i)).length) ∘ Nat.succ)
          = fun i => (degLeTuples d (M - i)).length := by
        funext i
        simp [Function.comp, Nat.succ_sub_succ_eq_sub]
      rw [hcomp, ← hsum M, ihM, Nat.sub_zero, ihd (M + 1)]
      have h1 : M + 1 + d = M + d + 1 := by omega
      have h2 : M + (d + 1) = M + d + 1 := by omega
      have h3 : M + 1 + (d + 1) = M + d + 1 + 1 := by omega
      rw [h1, h2, h3]
      exact (Nat.choose_succ_succ (M + d + 1) d).symm

/-- Invariant of the `np.argmax` scan: starting from a scanned prefix whose
first maximum is at the current best index, the result indexes the first
maximum of the whole list. -/
theorem npArgmaxGo_spec (xs : List Nat) : ∀ (pre : List Nat) (bi bv : Nat),
    bi < pre.length → pre.getD bi 0 = bv →
    (∀ j, j < pre.length → pre.getD j 0 ≤ bv) →
    (∀ j, j < bi → pre.getD j 0 < bv) →
    npArgmaxGo xs pre.length bi bv < (pre ++ xs).length ∧
      (∀ j, j < (pre ++ xs).length →
        (pre ++ xs).getD j 0 ≤ (pre ++ xs).getD (npArgmaxGo xs pre.length bi bv) 0) ∧
      ∀ j, j < npArgmaxGo xs pre.length bi bv →
        (pre ++ xs).getD j 0 < (pre ++ xs).getD (npArgmaxGo xs pre.length bi bv) 0 := by
  induction xs with
  | nil =>
    intro pre bi bv hbi hval hle hlt
    rw [List.append_nil]
    refine ⟨hbi, ?_, ?_⟩
    · intro j hj
      rw [show npArgmaxGo [] pre.length bi bv = bi from rfl, hval]
      exact hle j hj
    · intro j hj
      rw [show npArgmaxGo [] pre.length bi bv = bi from rfl] at hj ⊢
      rw [hval]
      exact hlt j hj
  | cons x xs ih =>
    intro pre bi bv hbi hval hle hlt
    by_cases hx : bv < x
    · have heq : npArgmaxGo (x :: xs) pre.length bi bv
          = npArgmaxGo xs (pre.length + 1) pre.length x := by
        simp [npArgmaxGo, hx]
      have hlen : (pre ++ [x]).length = pre.length + 1 := by simp
      have h1 : pre.length < (pre ++ [x]).length := by simp
      have h2 : (pre ++ [x]).getD pre.length 0 = x := by
        rw [List.getD_append_right pre [x] 0 pre.length (le_refl _)]
        simp
      have h3 : ∀ j, j < (pre ++ [x]).length → (pre ++ [x]).getD j 0 ≤ x := by
        intro j hj
        rcases Nat.lt_or_ge j pre.length with hj' | hj'
        · rw [List.getD_append pre [x] 0 j hj']
          exact le_of_lt (lt_of_le_of_lt (hle j hj') hx)
        · have hje : j = pre.length := by rw [hlen] at hj; omega
          rw [hje, h2]
      have h4 : ∀ j, j < pre.length → (pre ++ [x]).getD j 0 < x := by
        intro j hj
        rw [List.getD_append pre [x] 0 j hj]
        exact lt_of_le_of_lt (hle j hj) hx
      have hmain := ih (pre ++ [x]) pre.length x h1 h2 h3 h4
      rw [hlen, List.append_assoc] at hmain
      rw [heq]
      simpa using hmain
    · have heq : npArgmaxGo (x :: xs) pre.length bi bv
          = npArgmaxGo xs (pre.length + 1) bi bv := by
        simp [npArgmaxGo, hx]
      have hlen : (pre ++ [x]).length = pre.length + 1 := by simp
      have h1 : bi < (pre ++ [x]).length := by
        rw [hlen]; omega
      have h2 : (pre ++ [x]).getD bi 0 = bv := by
        rw [List.getD_append pre [x] 0 bi hbi]; exact hval
      have h3 : ∀ j, j < (pre ++ [x]).length → (pre ++ [x]).getD j 0 ≤ bv := by
        intro j hj
        rcases Nat.lt_or_ge j pre.length with hj' | hj'
        · rw [List.getD_append pre [x] 0 j hj']; exact hle j hj'
        · have hje : j = pre.length := by rw [hlen] at hj; omega
          rw [hje]
          rw [List.getD_append_right pre [x] 0 pre.length (le_refl _)]
          simp only [Nat.sub_self, List.getD_cons_zero]
          omega
      have h4 : ∀ j, j < bi → (pre ++ [x]).getD j 0 < bv := by
        intro j hj
        rw [List.getD_append pre [x] 0 j (lt_trans hj hbi)]
        exact hlt j hj
      have hmain := ih (pre ++ [x]) bi bv h1 h2 h3 h4
      rw [hlen, List.append_assoc] at hmain
      rw [heq]
      simpa using hmain

/-- `np.argmax` on a nonempty list: the result is in range, holds the
maximum, and every strictly earlier element is strictly smaller (the first
occurrence of the maximum wins). -/
theorem npArgmax_spec (l : List Nat) (h : l ≠ []) :
    npArgmax l < l.length ∧
      (∀ j, j < l.length → l.getD j 0 ≤ l.getD (npArgmax l) 0) ∧
      ∀ j, j < npArgmax l → l.getD j 0 < l.getD (npArgmax l) 0 := by
  match l, h with
  | x :: xs, _ =>
    have h3 : ∀ j, j < ([x] : List Nat).length → ([x] : List Nat).getD j 0 ≤ x := by
      intro j hj
      have hje : j = 0 := by simpa using hj
      rw [hje]
      simp
    have h4 : ∀ j, j < 0 → ([x] : List Nat).getD j 0 < x := by
      intro j hj
      exact absurd hj (Nat.not_lt_zero j)
    have hmain := npArgmaxGo_spec xs [x] 0 x (by simp) (by simp) h3 h4
    simpa [npArgmax] using hmain

/-- The lengths list evaluated at any index agrees with the time-vector
length of the solve at that index (the out-of-range defaults agree too). -/
theorem solveLengths_getD (solves : List Solve) :
    ∀ j, (solveLengths solves).getD j 0 = ((solves.getD j defaultSolve).t).length := by
  induction solves with
  | nil =>
    intro j
    simp [solveLengths, defaultSolve]
  | cons s ss ih =>
    intro j
    cases j with
    | zero => simp [solveLengths]
    | succ j =>
      simp only [solveLengths, List.map_cons, List.getD_cons_succ]
      exact ih j

/-- The reference grid's length is the selected entry of the lengths list. -/
theorem referenceT_length (solves : List Solve) :
    (referenceT solves).length
      = (solveLengths solves).getD (npArgmax (solveLengths solves)) 0 := by
  rw [referenceT]
  exact (solveLengths_getD solves (npArgmax (solveLengths solves))).symm

/-- Lookup after update on the results mapping. -/
theorem dictLookup_dictSet {α : Type} (m : List (String × α)) (k : String) (v : α) :
    dictLookup (dictSet m k v) k = some v := by
  induction m with
  | nil => simp [dictSet, dictLookup, List.find?]
  | cons p rest ih =>
    obtain ⟨k', v'⟩ := p
    by_cases hk : k' = k
    · simp [dictSet, hk, dictLookup, List.find?]
    · simp only [dictSet, if_neg hk]
      rw [dictLookup, List.find?_cons_of_neg _ (by simpa using hk)]
      exact ih

/-- C1 (counterexample).  The claim says the joint distribution's axis order
equals the uncertain-parameter registration order for ANY registration
order.  Registering `b` then `a` (both uncertain, with distinct marginal
distribution objects) refutes it: Python 2's `dict` stores `a` in hash slot
0 and `b` in hash slot 3, so `getUncertain` enumerates `a` before `b` and
`cp.J` receives the marginals in that slot order, the reverse of the
registration order. -/
theorem composeJoint_registration_order_counterexample :
    (Parameters.ofList c1List).map Parameters.getUncertainNames = Except.ok ["a", "b"]
    ∧ c1List.map (fun e => e.1) = ["b", "a"]
    ∧ (Parameters.ofList c1List).map (fun d => (createPCExpansionDist d).marginals)
        = Except.ok [CpDist.mk 1 0, CpDist.mk 1 1]
    ∧ (["a", "b"] : List String) ≠ ["b", "a"]
    ∧ ([CpDist.mk 1 0, CpDist.mk 1 1] : List CpDist) ≠ [CpDist.mk 1 1, CpDist.mk 1 0] := by
  refine ⟨by decide, by decide, by decide, by decide, by decide⟩

/-- C1 (amended).  For every parameter dictionary whose uncertain marginals
are one-dimensional, `cp.J(*getUncertain("parameter_space"))` has the
uncertain marginals as its axes, in the order `getUncertain` enumerates
them (the dict's slot order, which need not be the registration order), and
its dimensionality equals the number of uncertain parameters. -/
theorem composeJoint_axis_order_and_dim (d : PyDict Parameter)
    (h1 : ∀ p ∈ pyDictValues d, (p.parameter_space.map CpDist.dim).getD 1 = 1) :
    (createPCExpansionDist d).marginals = Parameters.getUncertainSpaces d
    ∧ (createPCExpansionDist d).dim = (Parameters.getUncertainNames d).length := by
  refine ⟨rfl, ?_⟩
  show ((Parameters.getUncertainSpaces d).map CpDist.dim).sum = _
  rw [Parameters.getUncertainSpaces, Parameters.getUncertainNames, List.length_map]
  exact sum_dims_eq_count (pyDictValues d) h1

theorem composeJoint_axis_order_and_dim_witness :
    (∀ p ∈ pyDictValues exampleDict, (p.parameter_space.map CpDist.dim).getD 1 = 1)
    ∧ ((createPCExpansionDist exampleDict).marginals
          = Parameters.getUncertainSpaces exampleDict
        ∧ (createPCExpansionDist exampleDict).dim
          = (Parameters.getUncertainNames exampleDict).length) :=
  ⟨by decide, composeJoint_axis_order_and_dim exampleDict (by decide)⟩

/-- C4 (counterexample).  The claim says a supplied multivariate
distribution whose dimensionality differs from the number of uncertain
parameters fails with `DimensionMismatch` before any evaluation is
dispatched.  In the code there is no dimensionality check at all: with 2
registered uncertain parameters, one of them carrying a 3-dimensional
multivariate distribution, construction succeeds, the joint distribution
silently gets dimensionality 4 (not 2), and node generation proceeds,
sampling 2 * C(3+4,4) = 70 nodes — no error of any kind is raised (the
only exceptions in `parameters.py` are `TypeError`s about non-distribution
arguments). -/
theorem dimension_mismatch_counterexample :
    (Parameters.ofList c4List).map (fun d => (Parameters.getUncertainNames d).length)
      = Except.ok 2
    ∧ (Parameters.ofList c4List).map (fun d => (createPCExpansionDist d).dim)
      = Except.ok 4
    ∧ (Parameters.ofList c4List).map
        (fun d => (createPCExpansionNodes d 3 (fun _ => [])).length)
      = Except.ok 70
    ∧ (2 : Nat) ≠ 4 := by
  refine ⟨by decide, by decide, by decide, by decide⟩

/-- C4 (amended).  `setDistribution` accepts a chaospy distribution object
of any dimensionality unchanged and unchecked; no `DimensionMismatch`
failure exists in the code. -/
theorem setDistribution_accepts_any_dim (p : Parameter) (q : CpDist) :
    Parameter.setDistribution p (PyObj.dist q)
      = Except.ok { p with parameter_space := some q } := rfl

/-- C5.  Setting a distribution through a generator function invokes the
function on the parameter's nominal value: if the call returns a chaospy
distribution, that distribution becomes the parameter's
`parameter_space`; otherwise the call fails with the
`TypeError("Function does not return a Chaospy distribution")` (the
spec's `InvalidDistribution` condition). -/
theorem setDistribution_generator_function (p : Parameter) (f : ℚ → PyObj) :
    (∀ q, f p.value = PyObj.dist q →
      Parameter.setDistribution p (PyObj.callable f)
        = Except.ok { p with parameter_space := some q })
    ∧ ((∀ q, ¬ f p.value = PyObj.dist q) →
      Parameter.setDistribution p (PyObj.callable f)
        = Except.error
            (PyErr.typeError ("Function does not return a Chaospy distribution"))) := by
  constructor
  · intro q hq
    rw [Parameter.setDistribution, hq]
  · intro hq
    rw [Parameter.setDistribution]
    cases hf : f p.value with
    | dist q => exact absurd hf (hq q)
    | none => rfl
    | callable g => rfl
    | other => rfl

theorem setDistribution_generator_function_witness :
    goodGenerator witnessParam.value = PyObj.dist witnessDist
    ∧ Parameter.setDistribution witnessParam (PyObj.callable goodGenerator)
        = Except.ok { witnessParam with parameter_space := some witnessDist }
    ∧ Parameter.setDistribution witnessParam (PyObj.callable badGenerator)
        = Except.error
            (PyErr.typeError ("Function does not return a Chaospy distribution")) :=
  ⟨rfl,
   (setDistribution_generator_function witnessParam goodGenerator).1 witnessDist rfl,
   (setDistribution_generator_function witnessParam badGenerator).2
     (fun _ h => PyObj.noConfusion h)⟩

/-- C3.  The aligner: the reference grid `self.t` is the time vector with
the greatest number of samples across the batch — with the
first-encountered one selected on ties (`np.argmax` returns the first
maximum) — and every interpolated (aligned) result has exactly the
reference grid's length. -/
theorem aligner_reference_grid (solves : List Solve) (h : solves ≠ []) :
    (∀ j, j < solves.length →
      ((solves.getD j defaultSolve).t).length ≤ (referenceT solves).length)
    ∧ (∀ j, j < npArgmax (solveLengths solves) →
      ((solves.getD j defaultSolve).t).length < (referenceT solves).length)
    ∧ ∀ a ∈ interpolatedSolves solves, a.length = (referenceT solves).length := by
  have hl : solveLengths solves ≠ [] := by
    rw [solveLengths]
    simpa using h
  obtain ⟨hrange, hmax, hfirst⟩ := npArgmax_spec (solveLengths solves) hl
  have hlen : (solveLengths solves).length = solves.length := List.length_map _ _
  refine ⟨?_, ?_, ?_⟩
  · intro j hj
    rw [referenceT_length, ← solveLengths_getD]
    exact hmax j (by rwa [hlen])
  · intro j hj
    rw [referenceT_length, ← solveLengths_getD]
    exact hfirst j hj
  · intro a ha
    obtain ⟨s, _, rfl⟩ := List.mem_map.mp ha
    exact List.length_map _ _

theorem aligner_reference_grid_witness :
    exampleSolves ≠ []
    ∧ ((∀ j, j < exampleSolves.length →
        ((exampleSolves.getD j defaultSolve).t).length ≤ (referenceT exampleSolves).length)
      ∧ (∀ j, j < npArgmax (solveLengths exampleSolves) →
        ((exampleSolves.getD j defaultSolve).t).length < (referenceT exampleSolves).length)
      ∧ ∀ a ∈ interpolatedSolves exampleSolves,
          a.length = (referenceT exampleSolves).length) :=
  ⟨List.cons_ne_nil _ _, aligner_reference_grid exampleSolves (List.cons_ne_nil _ _)⟩

/-- C6.  `createPCExpansion` draws its regression node set with
`nodes = self.distribution.sample(2*len(self.P), "M")`: the node count is
exactly twice the size of the orthogonal basis `P = cp.orth_ttr(M, dist)`,
which for a joint distribution of dimensionality `k` has
`(M + k).choose k` polynomials. -/
theorem node_count_twice_basis (d : PyDict Parameter) (M : Nat) (draw : Nat → List ℚ) :
    (createPCExpansionNodes d M draw).length
      = 2 * (orth_ttr M (createPCExpansionDist d)).length
    ∧ (orth_ttr M (createPCExpansionDist d)).length
      = Nat.choose (M + (createPCExpansionDist d).dim) (createPCExpansionDist d).dim := by
  constructor
  · rw [createPCExpansionNodes, cpSample, List.length_map, List.length_range]
  · exact degLeTuples_length _ M

/-- C7.  With total degree `M = 0` the basis `cp.orth_ttr(0, dist)` is the
single constant polynomial, so every per-time-step coefficient vector of
the fitted expansion has length 1 and the orthogonality closed form of
`cp.Var` — which sums squared coefficients of the non-constant basis
functions only — yields variance 0 at every time step of the reference
grid. -/
theorem degree_zero_variance (jd : JointDist) (m : PCEModel) (norms : List ℚ)
    (hb : m.basis = orth_ttr 0 jd)
    (hc : ∀ c ∈ m.coeffs, c.length = m.basis.length) :
    ∀ v ∈ allParametersVar m norms, v = 0 := by
  have hlen : m.basis.length = 1 := by
    rw [hb, orth_ttr, degLeTuples_length]
    simp [Nat.choose_self]
  intro v hv
  obtain ⟨c, hcmem, rfl⟩ := List.mem_map.mp hv
  have h1 : c.length = 1 := (hc c hcmem).trans hlen
  obtain ⟨a, rfl⟩ := List.length_eq_one.mp h1
  rw [cpVarPCE]
  cases norms with
  | nil => rfl
  | cons n ns => rfl

theorem degree_zero_variance_witness :
    c7Model.basis = orth_ttr 0 c7Joint
    ∧ (∀ c ∈ c7Model.coeffs, c.length = c7Model.basis.length)
    ∧ ∀ v ∈ allParametersVar c7Model [1], v = 0 :=
  ⟨rfl, by decide, degree_zero_variance c7Joint c7Model [1] rfl (by decide)⟩

/-- C2 (counterexample).  The claim says a node failure is surfaced with
the offending node's index and parameter vector.  It is not: the failure
value is a function of the simulation's captured stdout/stderr alone —
two evaluations at distinct parameter vectors (`[2]` and `[3]`) with the
same simulation outcome abort with identical reports (and
`evaluateNodeFunction` receives no node index to begin with). -/
theorem node_failure_report_counterexample :
    evaluateNodeFunction (NodeVal.vec [2]) ["a"] (SimOutcome.mk 1 "out" "boom") [] [] []
      = evaluateNodeFunction (NodeVal.vec [3]) ["a"] (SimOutcome.mk 1 "out" "boom") [] [] []
    ∧ evaluateNodeFunction (NodeVal.vec [2]) ["a"] (SimOutcome.mk 1 "out" "boom") [] [] []
      = Except.error (NodeError.simulationFailed
          ["out", "Error when running simulation:", "boom"]) := by
  refine ⟨by decide, by decide⟩

/-- C2 (amended).  If any single node's simulation exits with a nonzero
return code, the whole batch run aborts (`sys.exit(1)` propagates past the
driving loop): no result list — hence no statistics — is produced, and the
failure is surfaced with only the simulation's captured stdout and stderr;
the offending node's index and parameter vector are not part of the
report. -/
theorem node_failure_abort (names : List String) (pre post : List NodeJob) (bad : NodeJob)
    (hpre : ∀ j ∈ pre, ∃ r, evaluateNodeFunction j.node names j.sim j.t j.U j.frs
        = Except.ok r)
    (hasg : (buildAssignment names (wrapScalarNode bad.node)).isSome = true)
    (hrc : bad.sim.rc ≠ 0) :
    runBatch names (pre ++ bad :: post)
      = Except.error (NodeError.simulationFailed
          [bad.sim.ut, "Error when running simulation:", bad.sim.err]) := by
  induction pre with
  | nil =>
    obtain ⟨a, ha⟩ := Option.isSome_iff_exists.mp hasg
    have he : evaluateNodeFunction bad.node names bad.sim bad.t bad.U bad.frs
        = Except.error (NodeError.simulationFailed
            [bad.sim.ut, "Error when running simulation:", bad.sim.err]) := by
      rw [evaluateNodeFunction, ha]
      simp [hrc]
    rw [List.nil_append, runBatch, he]
  | cons p ps ih =>
    obtain ⟨r, hr⟩ := hpre p (List.mem_cons_self _ _)
    rw [List.cons_append, runBatch, hr,
      ih (fun j hj => hpre j (List.mem_cons_of_mem _ hj))]

theorem node_failure_abort_witness :
    (∀ j ∈ [jobGood], ∃ r, evaluateNodeFunction j.node ["a"] j.sim j.t j.U j.frs
        = Except.ok r)
    ∧ (buildAssignment ["a"] (wrapScalarNode jobBad.node)).isSome = true
    ∧ jobBad.sim.rc ≠ 0
    ∧ runBatch ["a"] ([jobGood] ++ jobBad :: [])
        = Except.error (NodeError.simulationFailed
            [jobBad.sim.ut, "Error when running simulation:", jobBad.sim.err]) :=
  ⟨(by
      intro j hj
      rw [List.mem_singleton] at hj
      subst hj
      exact ⟨_, rfl⟩),
   by decide,
   by decide,
   node_failure_abort ["a"] [jobGood] [] jobBad
     (by
       intro j hj
       rw [List.mem_singleton] at hj
       subst hj
       exact ⟨_, rfl⟩)
     (by decide) (by decide)⟩

/-- C9.  A bare scalar node (the one-uncertain-parameter case) is wrapped
into a one-element list before any indexing, so the name-to-value
assignment is built successfully — the evaluation never fails with the
`IndexError` of indexing into a non-indexable scalar. -/
theorem scalar_node_wrap (n : String) (x : ℚ) (sim : SimOutcome)
    (t U : List ℚ) (frs : List (String × FRes)) :
    wrapScalarNode (NodeVal.scalar x) = [x]
    ∧ buildAssignment [n] (wrapScalarNode (NodeVal.scalar x)) = some [(n, x)]
    ∧ evaluateNodeFunction (NodeVal.scalar x) [n] sim t U frs
        ≠ Except.error NodeError.indexError := by
  refine ⟨rfl, rfl, ?_⟩
  have hb : buildAssignment [n] (wrapScalarNode (NodeVal.scalar x)) = some [(n, x)] := rfl
  rw [evaluateNodeFunction, hb]
  by_cases h : sim.rc = 0 <;> simp [h]

theorem scalar_node_wrap_witness :
    wrapScalarNode (NodeVal.scalar 5) = [5]
    ∧ buildAssignment ["a"] (wrapScalarNode (NodeVal.scalar 5)) = some [("a", 5)]
    ∧ evaluateNodeFunction (NodeVal.scalar 5) ["a"] (SimOutcome.mk 0 "" "") [] [] []
        ≠ Except.error NodeError.indexError :=
  scalar_node_wrap "a" 5 (SimOutcome.mk 0 "" "") [] [] []

/-- C10.  Every successful per-node evaluation returns a result mapping in
which the key `directComparison` is bound to the raw time vector, the raw
output vector, and the cubic spline (`k = 3`) of that output against its
own time vector — irrespective of the requested features (the binding is
written last, after the feature loop). -/
theorem directComparison_always_present (node : NodeVal) (names : List String)
    (sim : SimOutcome) (t U : List ℚ) (frs : List (String × FRes))
    (m : List (String × ResultEntry))
    (h : evaluateNodeFunction node names sim t U frs = Except.ok m) :
    dictLookup m ("directComparison")
      = some (some t, FOut.list U, some (Spline.mk t U 3)) := by
  rw [evaluateNodeFunction] at h
  cases hb : buildAssignment names (wrapScalarNode node) with
  | none =>
    rw [hb] at h
    exact absurd h (by simp)
  | some a =>
    rw [hb] at h
    by_cases hrc : sim.rc = 0
    · simp only [hrc, ne_eq, not_true_eq_false, if_false, ite_false,
        if_neg (by simp : ¬ (0 : Int) ≠ 0)] at h
      have hm := Except.ok.inj h
      rw [← hm]
      exact dictLookup_dictSet _ _ _
    · rw [if_pos hrc] at h
      exact absurd h (by simp)

theorem directComparison_always_present_witness :
    evaluateNodeFunction (NodeVal.vec [2]) ["a"] (SimOutcome.mk 0 "" "") c10T c10U []
      = Except.ok c10Map
    ∧ dictLookup c10Map ("directComparison")
        = some (some c10T, FOut.list c10U, some (Spline.mk c10T c10U 3)) :=
  ⟨by decide,
   directComparison_always_present (NodeVal.vec [2]) ["a"] (SimOutcome.mk 0 "" "")
     c10T c10U [] c10Map (by decide)⟩
